import Mathlib

/-!
Verification development for the respy-tech-api gateway core: the request
validation/sanitization pipeline (`validationUtils.ts`, `sanitizationUtils.ts`),
the premium-access gate (`accessUtils`), the outbound request builder
(`configUtils.ts`), the failover executor (`failoverUtils`), the error mapper
(`errorHandling.ts`) and the streaming relay (`streamUtils.ts`, the
StreamProcessor revisions).  JavaScript strings are modelled as `List Char`,
JSON values as an inductive `Json` with an executable serializer and a
fuel-based reader for the escape-free subset actually exercised here.
-/

/-- JavaScript strings, modelled as lists of characters. -/
abbrev JStr := List Char

/-- Convert a Lean string literal to the `JStr` model. -/
def jstr (s : String) : JStr := s.data

/-- The opening-brace character (written numerically). -/
def lbrace : Char := Char.ofNat 123

/-- The closing-brace character (written numerically). -/
def rbrace : Char := Char.ofNat 125

/-- The whitespace characters removed by JavaScript's `String.prototype.trim`
(restricted to the ASCII whitespace that can occur in this pipeline). -/
def isJsWs (c : Char) : Bool := c = ' ' || c = '\t' || c = '\n' || c = '\r'

/-- Remove leading whitespace, as the front half of `trim`. -/
def trimLeft (s : JStr) : JStr := s.dropWhile isJsWs

/-- Remove trailing whitespace, as the back half of `trim`. -/
def trimRight (s : JStr) : JStr := (s.reverse.dropWhile isJsWs).reverse

/-- JavaScript `String.prototype.trim`: drop whitespace from both ends. -/
def trim (s : JStr) : JStr := trimLeft (trimRight s)

/-- `p.startsWithL s` is JavaScript `s.startsWith(p)`. -/
def startsWithL : JStr → JStr → Bool
  | [], _ => true
  | _ :: _, [] => false
  | p :: ps, c :: cs => p == c && startsWithL ps cs

/-- Substring test: does `pat` occur anywhere in `s`? -/
def containsSub (pat : JStr) (s : JStr) : Bool :=
  match s with
  | [] => startsWithL pat []
  | c :: rest => startsWithL pat (c :: rest) || containsSub pat rest

/-- Lower-case an ASCII character, for the case-insensitive pieces of the code
(`provider.name.toLowerCase()`, the `/gi` regex flag). -/
def lowerChar (c : Char) : Char :=
  if 'A' ≤ c ∧ c ≤ 'Z' then Char.ofNat (c.toNat + 32) else c

/-- JavaScript `String.prototype.toLowerCase` on ASCII text. -/
def lowerJ (s : JStr) : JStr := s.map lowerChar

/-- JSON values, as produced by `JSON.parse`.  Object fields keep insertion
order, matching JavaScript property order; numbers are restricted to the
integers (the only numbers appearing in the frames analysed here). -/
inductive Json where
  | null : Json
  | bool : Bool → Json
  | num : Int → Json
  | str : JStr → Json
  | arr : List Json → Json
  | obj : List (JStr × Json) → Json

/-- Decimal digits of a natural number, most significant first. -/
def natDigits (n : Nat) : JStr :=
  if h : n < 10 then [Char.ofNat (48 + n)]
  else natDigits (n / 10) ++ [Char.ofNat (48 + n % 10)]
  decreasing_by exact Nat.div_lt_self (Nat.lt_of_lt_of_le (by omega) (Nat.le_of_not_lt h)) (by omega)

/-- Serialize an integer the way `JSON.stringify` prints integral numbers. -/
def serInt (n : Int) : JStr :=
  if n < 0 then '-' :: natDigits n.natAbs else natDigits n.natAbs

mutual

/-- `JSON.stringify` on the modelled JSON values: canonical, no whitespace,
object fields in insertion order. -/
def serJson : Json → JStr
  | .null => jstr "null"
  | .bool true => jstr "true"
  | .bool false => jstr "false"
  | .num n => serInt n
  | .str s => '"' :: (s ++ ['"'])
  | .arr xs => '[' :: (serArr xs ++ [']'])
  | .obj fs => lbrace :: (serObj fs ++ [rbrace])

/-- Serialize array elements, comma separated. -/
def serArr : List Json → JStr
  | [] => []
  | [x] => serJson x
  | x :: y :: rest => serJson x ++ ',' :: serArr (y :: rest)

/-- Serialize object fields, comma separated. -/
def serObj : List (JStr × Json) → JStr
  | [] => []
  | [(k, v)] => '"' :: (k ++ '"' :: ':' :: serJson v)
  | (k, v) :: f :: rest => ('"' :: (k ++ '"' :: ':' :: serJson v)) ++ ',' :: serObj (f :: rest)

end

/-- JSON whitespace accepted between tokens by `JSON.parse`. -/
def skipWs (s : JStr) : JStr := s.dropWhile isJsWs

/-- A character allowed inside a modelled JSON string literal: no quote, no
backslash (escapes are outside the modelled subset), no control character
(which `JSON.parse` rejects in raw form). -/
def jsonStrChar (c : Char) : Bool := c ≠ '"' && c ≠ '\\' && 32 ≤ c.toNat

/-- Digit test for the reader. -/
def isDigitC (c : Char) : Bool := '0' ≤ c && c ≤ '9'

/-- Value of a digit character. -/
def digitVal (c : Char) : Nat := c.toNat - 48

/-- Read a run of digits as a natural number. -/
def readNatFrom (s : JStr) : Option (Nat × JStr) :=
  let ds := s.takeWhile isDigitC
  if ds = [] then none
  else some (ds.foldl (fun a c => a * 10 + digitVal c) 0, s.drop ds.length)

mutual

/-- Fuel-based model of `JSON.parse` on one value, returning the value and the
unconsumed remainder.  Covers the escape-free subset: `null`, booleans,
integers, strings without escapes, arrays and objects (duplicate object keys
are rejected; JavaScript objects cannot hold duplicates, so on this subset
first-occurrence lookup coincides with property access). -/
def readVal : Nat → JStr → Option (Json × JStr)
  | 0, _ => none
  | fuel + 1, s =>
    match skipWs s with
    | 'n' :: 'u' :: 'l' :: 'l' :: r => some (.null, r)
    | 't' :: 'r' :: 'u' :: 'e' :: r => some (.bool true, r)
    | 'f' :: 'a' :: 'l' :: 's' :: 'e' :: r => some (.bool false, r)
    | '"' :: r =>
      let content := r.takeWhile jsonStrChar
      (match r.drop content.length with
       | '"' :: r2 => some (.str content, r2)
       | _ => none)
    | '-' :: r =>
      (match readNatFrom r with
       | some (n, r2) => some (.num (-(n : Int)), r2)
       | none => none)
    | '[' :: r =>
      (match skipWs r with
       | ']' :: r2 => some (.arr [], r2)
       | _ =>
         match readItems fuel r with
         | some (xs, r2) => some (.arr xs, r2)
         | none => none)
    | c :: r =>
      if c = lbrace then
        match skipWs r with
        | c2 :: r2 =>
          if c2 = rbrace then some (.obj [], r2)
          else
            (match readFields fuel (c2 :: r2) with
             | some (fs, r3) => some (.obj fs, r3)
             | none => none)
        | [] => none
      else if isDigitC c then
        match readNatFrom (c :: r) with
        | some (n, r2) => some (.num (n : Int), r2)
        | none => none
      else none
    | [] => none

/-- Read one-or-more comma-separated array items up to the closing bracket. -/
def readItems : Nat → JStr → Option (List Json × JStr)
  | 0, _ => none
  | fuel + 1, s =>
    match readVal fuel s with
    | none => none
    | some (v, r) =>
      match skipWs r with
      | ',' :: r2 =>
        (match readItems fuel r2 with
         | some (xs, r3) => some (v :: xs, r3)
         | none => none)
      | ']' :: r2 => some ([v], r2)
      | _ => none

/-- Read one-or-more comma-separated object fields up to the closing brace. -/
def readFields : Nat → JStr → Option (List (JStr × Json) × JStr)
  | 0, _ => none
  | fuel + 1, s =>
    match skipWs s with
    | '"' :: r =>
      let key := r.takeWhile jsonStrChar
      (match r.drop key.length with
       | '"' :: r2 =>
         (match skipWs r2 with
          | ':' :: r3 =>
            (match readVal fuel r3 with
             | none => none
             | some (v, r4) =>
               match skipWs r4 with
               | ',' :: r5 =>
                 (match readFields fuel r5 with
                  | some (fs, r6) =>
                    if fs.any (fun f => f.fst = key) then none
                    else some ((key, v) :: fs, r6)
                  | none => none)
               | c :: r5 =>
                 if c = rbrace then some ([(key, v)], r5) else none
               | [] => none)
          | _ => none)
       | _ => none)
    | _ => none

end

/-- Model of `JSON.parse` applied to a whole string: the text must be a single
value with nothing but whitespace after it. -/
def parseJson (s : JStr) : Option Json :=
  match readVal (s.length + 1) s with
  | some (v, r) => if skipWs r = [] then some v else none
  | none => none

/-!
## Streaming relay: `StreamProcessor` from `streamUtils.ts`

`processChunk` appends the chunk to the buffer and repeatedly extracts the text
before the first `'\n'` (trimmed) as one line, leaving the text after it in the
buffer.  That loop partitions the buffer at every newline, in order; it is
embedded as `splitLines`, returning the complete lines and the trailing
leftover that contains no newline.
-/

/-- Split a buffer at every `'\n'`: the complete lines (without their
terminating newline) in order, and the newline-free leftover.  This is the
semantics both of `streamUtils.ts`'s `indexOf('\n')`/`slice` loop and of the
`split('\n')` + `pop()` used in the other StreamProcessor revision. -/
def splitLines : JStr → List JStr × JStr
  | [] => ([], [])
  | c :: rest =>
    if c = '\n' then
      let p := splitLines rest
      ([] :: p.1, p.2)
    else
      match splitLines rest with
      | (l :: ls, lo) => ((c :: l) :: ls, lo)
      | ([], lo) => ([], c :: lo)

/-- The caller-visible frame for one re-serialized data payload:
`` `data: ${JSON.stringify(parsed)}\n\n` ``. -/
def dataFrame (payload : JStr) : JStr := jstr "data: " ++ payload ++ jstr "\n\n"

/-- The literal terminator frame `` `data: [DONE]\n\n` ``. -/
def doneFrame : JStr := jstr "data: [DONE]\n\n"

/-- State of one `StreamProcessor` (`streamUtils.ts`): the carry-over buffer,
the frames written to the caller's response so far, and whether the response
has been ended (`res.writableEnded`). -/
structure SPState where
  buffer : JStr
  writes : List JStr
  ended : Bool
deriving DecidableEq

/-- A fresh `StreamProcessor` over a fresh response. -/
def initSP : SPState := ⟨[], [], false⟩

/-- Handling of one complete line in `processChunk` (`streamUtils.ts` lines
21-37): trim, require the `data: ` prefix, forward `[DONE]` verbatim,
otherwise `JSON.parse` the payload and forward its re-serialization; a payload
that fails to parse is logged and skipped. -/
def handleLine (line : JStr) : List JStr :=
  let t := trim line
  if startsWithL (jstr "data: ") t then
    let d := t.drop 6
    if d = jstr "[DONE]" then [doneFrame]
    else
      match parseJson d with
      | some v => [dataFrame (serJson v)]
      | none => []
  else []

/-- `StreamProcessor.processChunk`: append the chunk to the buffer, then drain
every complete line through `handleLine`. -/
def processChunk (st : SPState) (chunk : JStr) : SPState :=
  let p := splitLines (st.buffer ++ chunk)
  ⟨p.2, st.writes ++ (p.1.map handleLine).flatten, st.ended⟩

/-- `StreamProcessor.end`: warn about any leftover buffer (log only), and when
the response is not yet ended, write one more `data: [DONE]\n\n` frame and end
the response. -/
def endStream (st : SPState) : SPState :=
  if st.ended then st else ⟨st.buffer, st.writes ++ [doneFrame], true⟩

/-- Feed a sequence of upstream chunks through `processChunk` in order. -/
def runChunks (st : SPState) (cs : List JStr) : SPState := cs.foldl processChunk st

/-- The upstream byte sequence of claim C2: one JSON data frame carrying the
payload text `s`, followed by the literal terminator frame. -/
def upstreamBytes (s : JStr) : JStr :=
  jstr "data: " ++ s ++ jstr "\n\n" ++ jstr "data: [DONE]\n\n"

/-!
## Streaming relay: the `StreamProcessor` revision with function-call
normalization (`handleFunctionCalls`)

This revision shares the buffering above but, before re-serializing a parsed
payload, rewrites `parsed.choices[0].delta` in place: `content` is set to
`null` and `function_call` is replaced by an object holding `name` when that
field is truthy, otherwise `arguments` when that field is truthy, otherwise
nothing.  JavaScript property reads/writes are modelled below; property access
that throws (reading off `undefined` or `null`) is modelled as `none`.
-/

/-- First-occurrence property lookup on a JSON object's field list (object
keys are unique on the modelled subset). -/
def objLookup : List (JStr × Json) → JStr → Option Json
  | [], _ => none
  | (k, v) :: rest, key => if k = key then some v else objLookup rest key

/-- JavaScript property write: an existing key keeps its position and gets the
new value, a new key is appended (JavaScript property-order semantics). -/
def objSet : List (JStr × Json) → JStr → Json → List (JStr × Json)
  | [], key, v => [(key, v)]
  | (k, w) :: rest, key, v =>
    if k = key then (key, v) :: rest else (k, w) :: objSet rest key v

/-- JavaScript property read `v.k` on an arbitrary value: objects look the key
up, primitives yield `undefined` (here `some none`), and `null` throws
(`none`). -/
def pget : Json → JStr → Option Json
  | .obj fs, key => objLookup fs key
  | _, _ => none

/-- JavaScript truthiness of a value. -/
def truthy : Json → Bool
  | .null => false
  | .bool b => b
  | .num n => n ≠ 0
  | .str s => s ≠ []
  | .arr _ => true
  | .obj _ => true

/-- Truthiness of a possibly-absent value (`undefined` is falsy). -/
def truthyO : Option Json → Bool
  | none => false
  | some v => truthy v

/-- The key `"name"`. -/
def nameKey : JStr := jstr "name"

/-- The key `"arguments"`. -/
def argsKey : JStr := jstr "arguments"

/-- The replacement `function_call` object built by `handleFunctionCalls`:
`functionCall.name ? {name} : functionCall.arguments ? {arguments} : {}`
(JavaScript truthiness, so an empty-string field counts as absent). -/
def normalizeFC (fc : Json) : Json :=
  match pget fc nameKey with
  | some nv =>
    if truthy nv then .obj [(nameKey, nv)]
    else
      match pget fc argsKey with
      | some av => if truthy av then .obj [(argsKey, av)] else .obj []
      | none => .obj []
  | none =>
    match pget fc argsKey with
    | some av => if truthy av then .obj [(argsKey, av)] else .obj []
    | none => .obj []

/-- `handleFunctionCalls` (`part_009` lines 83-93): reads
`parsed.choices[0].delta.function_call` unconditionally — any read that throws
in JavaScript is `none` here and is caught by the caller's `try` — and when
that value is truthy sets `delta.content = null` and replaces
`delta.function_call` by `normalizeFC`.  A `choices` value that is an object
rather than an array is outside the modelled frames (upstream frames carry
`choices` arrays) and also maps to `none`. -/
def handleFunctionCalls (parsed : Json) : Option Json :=
  match parsed with
  | .obj pf =>
    match objLookup pf (jstr "choices") with
    | some (.arr (c0 :: rest)) =>
      (match c0 with
       | .obj c0f =>
         (match objLookup c0f (jstr "delta") with
          | some (.obj df) =>
            (match objLookup df (jstr "function_call") with
             | some fc =>
               if truthy fc then
                 let df' := objSet (objSet df (jstr "content") .null)
                     (jstr "function_call") (normalizeFC fc)
                 some (.obj (objSet pf (jstr "choices")
                     (.arr (.obj (objSet c0f (jstr "delta") (.obj df')) :: rest))))
               else some parsed
             | none => some parsed)
          | some .null => none
          | some _ => some parsed
          | none => none)
       | _ => none)
    | some (.arr []) => none
    | some _ => none
    | none => none
  | _ => none

/-- The data-line pipeline of this revision (`processDataLine` +
`processJsonData`): forward `[DONE]` verbatim; otherwise parse, normalize via
`handleFunctionCalls`, and forward the re-serialization — a parse failure or a
thrown property access is caught and the frame is skipped. -/
def p9HandleData (d : JStr) : List JStr :=
  if d = jstr "[DONE]" then [doneFrame]
  else
    match parseJson d with
    | some parsed =>
      (match handleFunctionCalls parsed with
       | some p' => [dataFrame (serJson p')]
       | none => [])
    | none => []

/-- Observer: the first choice's `delta` object of a frame. -/
def firstDelta (j : Json) : Option Json :=
  match j with
  | .obj pf =>
    (match objLookup pf (jstr "choices") with
     | some (.arr (.obj c0f :: _)) => objLookup c0f (jstr "delta")
     | _ => none)
  | _ => none

/-- Observer: the first choice's `delta.content`. -/
def deltaContent (j : Json) : Option Json :=
  match firstDelta j with
  | some (.obj df) => objLookup df (jstr "content")
  | _ => none

/-- Observer: the first choice's `delta.function_call`. -/
def deltaFC (j : Json) : Option Json :=
  match firstDelta j with
  | some (.obj df) => objLookup df (jstr "function_call")
  | _ => none

/-!
## Request data model (`types/openai.ts` / `chatCompletionsSchema.ts`)

The typed shape of a `ChatCompletionRequest`: message content is a string,
`null`, or an array of typed parts; optional numeric sampling parameters are
JavaScript numbers, modelled as rationals; `functions`/`tools` families are
optional arrays.
-/

/-- The `image_url` part payload. -/
structure ImageUrl where
  url : JStr
  detail : Option JStr
deriving DecidableEq

/-- One typed content part (`{type, text?, image_url?}`). -/
structure ContentPart where
  type : JStr
  text : Option JStr
  image_url : Option ImageUrl
deriving DecidableEq

/-- Message content: a string, an array of typed parts, or `null`. -/
inductive MsgContent where
  | str : JStr → MsgContent
  | parts : List ContentPart → MsgContent
  | nullc : MsgContent
deriving DecidableEq

/-- A message's own `function_call` record (`{name, arguments}`). -/
structure MsgFC where
  name : JStr
  arguments : JStr
deriving DecidableEq

/-- One chat message. -/
structure Message where
  role : JStr
  content : MsgContent
  name : Option JStr
  function_call : Option MsgFC
deriving DecidableEq

/-- A function definition (`{name, description?, parameters}`). -/
structure FuncDef where
  name : JStr
  description : Option JStr
  parameters : Json

/-- The `function_call` request field: `'auto' | 'none' | {name}`. -/
inductive FuncCallChoice where
  | fcAuto : FuncCallChoice
  | fcNone : FuncCallChoice
  | fcNamed : JStr → FuncCallChoice
deriving DecidableEq

/-- A tool: `{type: 'function', function}`. -/
structure Tool where
  func : FuncDef

/-- The `tool_choice` request field. -/
inductive ToolChoice where
  | tcAuto : ToolChoice
  | tcNone : ToolChoice
  | tcNamed : JStr → ToolChoice
deriving DecidableEq

/-- The typed chat-completion request. -/
structure ChatCompletionRequest where
  model : JStr
  messages : List Message
  temperature : Option Rat
  top_p : Option Rat
  n : Option Rat
  stream : Option Bool
  stop : Option JStr
  max_tokens : Option Rat
  presence_penalty : Option Rat
  frequency_penalty : Option Rat
  logit_bias : Option (List (JStr × Rat))
  user : Option JStr
  functions : Option (List FuncDef)
  function_call : Option FuncCallChoice
  tools : Option (List Tool)
  tool_choice : Option ToolChoice

/-!
## Validator (`src/utils/validationUtils.ts`, the list-of-errors revision)

On the typed request the `typeof` guards of the source always pass, so only
the range, enum-membership, emptiness and integrality checks remain; error
messages are the source's templates instantiated at each call site.
-/

/-- `isValidModel`: a non-empty string. -/
def isValidModel (m : JStr) : Bool := m.length > 0

/-- `validateModel`. -/
def validateModel (m : JStr) : List String :=
  if isValidModel m then [] else ["Invalid or missing model"]

/-- Per-part content checks of `validateMessages`. -/
def validatePart (i j : Nat) (p : ContentPart) : List String :=
  (if p.type ≠ jstr "text" ∧ p.type ≠ jstr "image_url" then
    ["Invalid content type at message " ++ toString i ++ ", content " ++ toString j]
  else []) ++
  (if p.type = jstr "text" ∧ p.text = none then
    ["Invalid text content at message " ++ toString i ++ ", content " ++ toString j]
  else []) ++
  (if p.type = jstr "image_url" ∧ p.image_url = none then
    ["Invalid image_url content at message " ++ toString i ++ ", content " ++ toString j]
  else [])

/-- Per-message checks of `validateMessages`: role membership and content
shape (`null` content is neither an array nor a string, hence an error). -/
def validateOneMessage (i : Nat) (m : Message) : List String :=
  (if m.role = jstr "system" ∨ m.role = jstr "user" ∨ m.role = jstr "assistant" then []
   else ["Invalid role for message at index " ++ toString i]) ++
  (match m.content with
   | .parts ps => (ps.enum.map fun ⟨j, p⟩ => validatePart i j p).flatten
   | .str _ => []
   | .nullc => ["Invalid content for message at index " ++ toString i])

/-- `validateMessages`. -/
def validateMessages (ms : List Message) : List String :=
  if ms = [] then ["Messages must be a non-empty array"]
  else (ms.enum.map fun ⟨i, m⟩ => validateOneMessage i m).flatten

/-- `validateNumberParam` on a typed number: the defined-and-out-of-range
check (the message template instantiated by the caller). -/
def validateNumberParam (v : Option Rat) (lo hi : Rat) (msg : String) : List String :=
  match v with
  | some x => if x < lo ∨ hi < x then [msg] else []
  | none => []

/-- `validateIntegerParam`: defined and (not an integer, or below the
minimum).  `Number.isInteger` on the rational model is `den = 1`. -/
def validateIntegerParam (v : Option Rat) (lo : Rat) (msg : String) : List String :=
  match v with
  | some x => if ¬x.den = 1 ∨ x < lo then [msg] else []
  | none => []

/-- `validateChatCompletionRequest`: the concatenated field checks, in source
order.  The typed `stream` field always passes `validateBooleanParam`.  Note
that no check inspects `functions`, `function_call`, `tools` or
`tool_choice`. -/
def validateChatCompletionRequest (r : ChatCompletionRequest) : List String :=
  validateModel r.model ++
  validateMessages r.messages ++
  validateNumberParam r.temperature 0 2 "Temperature must be a number between 0 and 2" ++
  validateNumberParam r.top_p 0 1 "Top_p must be a number between 0 and 1" ++
  validateIntegerParam r.n 1 "N must be a positive integer" ++
  validateIntegerParam r.max_tokens 1 "Max_tokens must be a positive integer" ++
  validateNumberParam r.presence_penalty (-2) 2
    "Presence_penalty must be a number between -2 and 2" ++
  validateNumberParam r.frequency_penalty (-2) 2
    "Frequency_penalty must be a number between -2 and 2"

/-- The first `.refine` of `chatCompletionSchema`
(`schema/chatCompletionsSchema.ts` lines 80-86): a payload carrying both
`functions` and `tools` is rejected with "You can provide either 'functions'
or 'tools', but not both." -/
def schemaFunctionsToolsExclusive (r : ChatCompletionRequest) : Bool :=
  !(r.functions.isSome && r.tools.isSome)

/-!
## Sanitizer (`src/utils/sanitizationUtils.ts`, the sanitize-html revision)

`sanitizeInput` runs `sanitize-html` with no allowed tags and a `textFilter`
removing `/(javascript|script):/gi`, then trims.  On markup-free text (no
tags, no HTML entities) `sanitize-html` returns its input unchanged with the
`textFilter` applied, which is the only regime this development evaluates; the
filter is the regex's single left-to-right pass, `javascript:` tried before
`script:` at each position, case-insensitively.  `sanitize-html`'s underlying
tokenizer requires a string: message content that is an array of parts (or
`null`) does not survive it — depending on the library revision the call
throws or coerces the value to its JavaScript string form — modelled as an
error, since either way the structure is destroyed.
-/

/-- One left-to-right pass of `/(javascript|script):/gi` removal, the
`textFilter` of `sanitizeInput`: at each position the regex tries
`javascript:` first, then `script:`, case-insensitively, removing the match
and resuming after it.  Fuel-indexed (the scan consumes at least one character
per step, so `s.length` fuel always suffices). -/
def scriptFilterF : Nat → JStr → JStr
  | 0, s => s
  | _ + 1, [] => []
  | fuel + 1, c :: rest =>
    if startsWithL (jstr "javascript:") (lowerJ (c :: rest)) then
      scriptFilterF fuel ((c :: rest).drop 11)
    else if startsWithL (jstr "script:") (lowerJ (c :: rest)) then
      scriptFilterF fuel ((c :: rest).drop 7)
    else c :: scriptFilterF fuel rest

/-- The single regex pass at full fuel. -/
def scriptFilter (s : JStr) : JStr := scriptFilterF s.length s

/-- `sanitizeInput` on markup-free text: the `textFilter` pass, then `trim`. -/
def sanitizeInput (s : JStr) : JStr := trim (scriptFilter s)

/-- `sanitizeModel`: keep a valid (non-empty) model id, else the empty
string. -/
def sanitizeModel (m : JStr) : JStr := if isValidModel m then m else []

/-- `sanitizeMessages`: spread each message, sanitizing `role` and `content`.
`sanitizeInput` is applied to the content unconditionally; non-string content
(an array of parts, or `null`) does not survive the HTML tokenizer and is
modelled as a thrown error. -/
def sanitizeMessages (ms : List Message) : Except String (List Message) :=
  ms.mapM fun m =>
    match m.content with
    | .str s => .ok { m with role := sanitizeInput m.role, content := .str (sanitizeInput s) }
    | _ => .error "sanitize-html applied to non-string message content"

/-- `sanitizeFunctions`: sanitize `name` and `description`
(`sanitize-html` maps a nullish `description` to the empty string) and round
`parameters` through `JSON.parse(sanitizeInput(JSON.stringify(...)))`; a
round-trip that no longer parses is a thrown error. -/
def sanitizeFunctions (fs : Option (List FuncDef)) : Except String (Option (List FuncDef)) :=
  match fs with
  | none => .ok none
  | some l =>
    (l.mapM fun (f : FuncDef) =>
      let desc : JStr := (f.description.map sanitizeInput).getD []
      match parseJson (sanitizeInput (serJson f.parameters)) with
      | some p' =>
        (Except.ok ⟨sanitizeInput f.name, some desc, p'⟩ : Except String FuncDef)
      | none =>
        (Except.error "JSON.parse failed on sanitized function parameters" :
          Except String FuncDef)).map some

/-- `sanitizeFunctionCall`: keep `'auto'`/`'none'`; an object with a `name`
keeps only the sanitized name. -/
def sanitizeFunctionCall : Option FuncCallChoice → Option FuncCallChoice
  | none => none
  | some .fcAuto => some .fcAuto
  | some .fcNone => some .fcNone
  | some (.fcNamed n) => some (.fcNamed (sanitizeInput n))

/-- `sanitizeRange`: clamp a defined number into `[lo, hi]`
(`Math.max(lo, Math.min(hi, v))`). -/
def sanitizeRange (v : Option Rat) (lo hi : Rat) : Option Rat :=
  v.map fun x => max lo (min hi x)

/-- `sanitizeInteger`: floor a defined number and clamp below by `lo`
(`Math.max(lo, Math.floor(v))`). -/
def sanitizeInteger (v : Option Rat) (lo : Rat) : Option Rat :=
  v.map fun x => max lo (x.floor : Rat)

/-- `sanitizeChatCompletionRequest` (lines 34-44): spread the request,
sanitizing `model`, `messages`, `functions`, `function_call`, `user` and the
numeric parameters; `stop`, `logit_bias`, `tools` and `tool_choice` pass
through the spread unchanged. -/
def sanitizeChatCompletionRequest (r : ChatCompletionRequest) :
    Except String ChatCompletionRequest := do
  let msgs ← sanitizeMessages r.messages
  let fns ← sanitizeFunctions r.functions
  return { model := sanitizeModel r.model
           messages := msgs
           temperature := sanitizeRange r.temperature 0 2
           top_p := sanitizeRange r.top_p 0 1
           n := sanitizeInteger r.n 1
           stream := r.stream
           stop := r.stop
           max_tokens := sanitizeInteger r.max_tokens 1
           presence_penalty := sanitizeRange r.presence_penalty (-2) 2
           frequency_penalty := sanitizeRange r.frequency_penalty (-2) 2
           logit_bias := r.logit_bias
           user := r.user.map sanitizeInput
           functions := fns
           function_call := sanitizeFunctionCall r.function_call
           tools := r.tools
           tool_choice := r.tool_choice }

/-!
## Premium-access gate (`controllers/chatCompletions/utils/accessUtils`)
-/

/-- The model metadata consumed by the gate (`interface ModelInfo`). -/
structure AccessModelInfo where
  premium : Bool
deriving DecidableEq

/-- An API key record (`types/openai.ts` `ApiKey`). -/
structure ApiKey where
  id : JStr
  premium : Bool
  generated : JStr
deriving DecidableEq

/-- The denial message thrown by `checkPremiumAccess`. -/
def premiumDeniedMsg : String := "Premium access required for this model"

/-- `checkPremiumAccess`: throw iff the model is premium and
`apiKeyInfo && apiKeyInfo.premium` is falsy (the key record absent or not
premium). -/
def checkPremiumAccess (modelInfo : AccessModelInfo) (apiKeyInfo : Option ApiKey) :
    Except String Unit :=
  let isPremiumModel := modelInfo.premium
  let hasValidApiKey := match apiKeyInfo with
    | some a => a.premium
    | none => false
  if isPremiumModel && !hasValidApiKey then .error premiumDeniedMsg else .ok ()

/-!
## Outbound request builder (`controllers/chatCompletions/utils/configUtils.ts`)
-/

/-- A provider table entry (`{name, endpoint, models}`). -/
structure Provider where
  name : JStr
  endpoint : JStr
  models : List (JStr × JStr)

/-- A resolved provider plus its credential (`ProviderConfig`). -/
structure ProviderConfig where
  provider : Provider
  apiKey : JStr

/-- Lookup in a string-valued mapping (`provider.models[model]`), `none` when
the key is absent (`undefined`). -/
def objLookupS : List (JStr × JStr) → JStr → Option JStr
  | [], _ => none
  | (k, v) :: rest, key => if k = key then some v else objLookupS rest key

/-- The outbound JSON body assembled by `createOptimizedConfig`: the
provider-translated model, the messages and stream flag, the optional fields
copied when defined, and at most one of the `functions`/`tools` families. -/
structure OutboundData where
  model : Option JStr
  messages : List Message
  stream : Bool
  temperature : Option Rat
  top_p : Option Rat
  n : Option Rat
  stop : Option JStr
  max_tokens : Option Rat
  presence_penalty : Option Rat
  frequency_penalty : Option Rat
  logit_bias : Option (List (JStr × Rat))
  user : Option JStr
  functions : Option (List FuncDef)
  function_call : Option FuncCallChoice
  tools : Option (List Tool)
  tool_choice : Option ToolChoice

/-- The assembled axios request (`AxiosRequestConfig`): method, URL, bearer
header, body, response type, and the timeout added later by the failover
loop. -/
structure AxiosConfig where
  method : String
  url : JStr
  authorization : JStr
  data : OutboundData
  responseType : String
  timeout : Option Nat

/-- `createOptimizedConfig` (lines 16-62): body with
`providerConfig.provider.models[model]`, the optional fields copied when
defined, then `functions` (+`function_call` when defined) if present, else
`tools` (+`tool_choice` when defined) if present. -/
def createOptimizedConfig (pc : ProviderConfig) (r : ChatCompletionRequest)
    (stream : Bool) (model : JStr) : AxiosConfig :=
  let base : OutboundData :=
    { model := objLookupS pc.provider.models model
      messages := r.messages
      stream := stream
      temperature := r.temperature
      top_p := r.top_p
      n := r.n
      stop := r.stop
      max_tokens := r.max_tokens
      presence_penalty := r.presence_penalty
      frequency_penalty := r.frequency_penalty
      logit_bias := r.logit_bias
      user := r.user
      functions := none
      function_call := none
      tools := none
      tool_choice := none }
  let data : OutboundData :=
    if r.functions.isSome then
      { base with functions := r.functions, function_call := r.function_call }
    else if r.tools.isSome then
      { base with tools := r.tools, tool_choice := r.tool_choice }
    else base
  { method := "post"
    url := pc.provider.endpoint
    authorization := jstr "Bearer " ++ pc.apiKey
    data := data
    responseType := if stream then "stream" else "json"
    timeout := none }

/-!
## Failover executor (`controllers/chatCompletions/utils/failoverUtils`,
`part_011`) and provider resolution (`providerUtils.ts`)

`createFailoverFunction(timeout)` builds the candidate list — the primary
provider from `getProviderAndApiKey` followed by every other provider serving
the model — then, for each candidate, builds a config, sets `config.timeout`,
and *returns the candidate after an artificial delay*: the source's own
comment reads "Here you would typically make the API call / For
demonstration, we'll just return the provider config after a delay", so no
upstream request, and hence no upstream failure, ever happens inside the
loop.  The environment is the `process.env` credential table.
-/

/-- The `process.env` credential table. -/
abbrev Env := List (JStr × JStr)

/-- Truthiness of `provider.models[model]`: present and non-empty. -/
def modelsHas (p : Provider) (m : JStr) : Bool :=
  match objLookupS p.models m with
  | some v => v ≠ []
  | none => false

/-- `getProviderAndApiKey` (`providerUtils.ts` lines 32-56): the first
provider whose model table carries the requested model, with the credential
`process.env[provider.name.toLowerCase()]`; every inner failure is caught and
rethrown as the uniform configuration error. -/
def getProviderAndApiKey (env : Env) (providers : List Provider)
    (r : ChatCompletionRequest) : Except JStr ProviderConfig :=
  match providers.find? (fun p => modelsHas p r.model) with
  | none => .error (jstr "Failed to retrieve provider configuration")
  | some p =>
    match objLookupS env (lowerJ p.name) with
    | some k =>
      if k = [] then .error (jstr "Failed to retrieve provider configuration")
      else .ok ⟨p, k⟩
    | none => .error (jstr "Failed to retrieve provider configuration")

/-- `getAlternativeProviders` (`part_011` lines 20-39): every provider other
than the current one whose model table carries the model, each paired with its
credential; a missing credential for any of them rejects the whole list. -/
def getAlternativeProviders (env : Env) (providers : List Provider)
    (currentName : JStr) (model : JStr) : Except JStr (List ProviderConfig) :=
  (providers.filter fun p => p.name ≠ currentName && modelsHas p model).mapM
    fun p =>
      match objLookupS env (lowerJ p.name) with
      | some k =>
        if k = [] then
          (Except.error (jstr "API key not found for provider " ++ p.name) :
            Except JStr ProviderConfig)
        else .ok ⟨p, k⟩
      | none => .error (jstr "API key not found for provider " ++ p.name)

/-- One iteration of the failover loop's `try` block: build the config, set
`config.timeout`, wait out the artificial delay, and succeed with the
candidate.  Nothing in the block can throw, so the attempt always succeeds
without any upstream call. -/
def attemptProvider (timeout : Nat) (r : ChatCompletionRequest)
    (pc : ProviderConfig) : Except JStr ProviderConfig :=
  let config := createOptimizedConfig pc r (r.stream.getD false) r.model
  let _configWithTimeout := { config with timeout := some timeout }
  .ok pc

/-- The candidate loop of `failoverFunction`: attempt each candidate in order,
logging a success (`Successfully used provider: ...`) or a failure
(`Failed to use provider ...`) and moving on. -/
def failoverLoop (timeout : Nat) (r : ChatCompletionRequest) :
    List ProviderConfig → List JStr → List JStr × Option ProviderConfig
  | [], logs => (logs, none)
  | pc :: rest, logs =>
    match attemptProvider timeout r pc with
    | .ok p =>
      (logs ++ [jstr "Successfully used provider: " ++ p.provider.name], some p)
    | .error e =>
      failoverLoop timeout r rest
        (logs ++ [jstr "Failed to use provider " ++ pc.provider.name ++ jstr ": " ++ e])

/-- `failoverFunction` (`part_011` lines 47-77): primary candidate, then the
alternatives, then the loop; if every candidate fails the aggregate error
`All providers failed to process the request` is thrown.  On success the
result also carries the log lines the loop emitted. -/
def failoverFunction (env : Env) (providers : List Provider) (timeout : Nat)
    (r : ChatCompletionRequest) : Except JStr (ProviderConfig × List JStr) := do
  let orig ← getProviderAndApiKey env providers r
  let alts ← getAlternativeProviders env providers orig.provider.name r.model
  match failoverLoop timeout r (orig :: alts) [] with
  | (logs, some p) => .ok (p, logs)
  | (_, none) => .error (jstr "All providers failed to process the request")

/-!
## Error mapper (`src/utils/errorHandling.ts`)
-/

/-- A response handle: whether headers were already sent, and the
status/body pairs written so far. -/
structure ResState where
  headersSent : Bool
  sent : List (Nat × String)
deriving DecidableEq

/-- A JavaScript error value as `handleError` duck-types it: whether it is an
`Error` instance, its `message`, and its own `statusCode`/`error` properties
when present. -/
structure JsErrorVal where
  isErrorInstance : Bool
  message : String
  statusCode : Option Nat
  errorField : Option String
deriving DecidableEq

/-- `handleError` (lines 25-34): an `Error` instance carrying both
`statusCode` and `error` properties is sent as-is, anything else becomes the
generic 500 `Internal server error`; nothing is sent when headers already
went out, so at most one response is ever written. -/
def handleError (res : ResState) (e : JsErrorVal) : ResState :=
  let body : Nat × String :=
    if e.isErrorInstance && e.statusCode.isSome && e.errorField.isSome then
      (e.statusCode.getD 500, e.errorField.getD "")
    else (500, "Internal server error")
  if !res.headersSent then ⟨true, res.sent ++ [body]⟩ else res

/-- The error thrown when the failover loop exhausts its candidates: a plain
`Error` instance, so it has no `statusCode`/`error` own-properties. -/
def allProvidersFailedError : JsErrorVal :=
  ⟨true, "All providers failed to process the request", none, none⟩

/-!
## Streaming relay: the disconnect-aware `StreamProcessor` revision
(`validateAndProcessRequest.ts` lines 405-580)

This revision registers `res.on('close', ...)` which sets
`isStreamDestroyed`; `processDataLine` returns early, `writeToResponse`
resolves silently without writing, and `end()` returns immediately once the
flag is set, so a client disconnect stops all further frames and drops the
buffered remainder without raising anything.  `Date.now()` is a parameter
(`nowMs`); frames that throw while being formatted are caught and skipped.
-/

/-- State of the disconnect-aware processor: the carry-over buffer, the
`isStreamDestroyed` flag, the frames written, and whether `res.end()` ran. -/
structure VprState where
  buffer : JStr
  destroyed : Bool
  writes : List JStr
  resEnded : Bool
deriving DecidableEq

/-- `writeToResponse`: skip silently when the stream is destroyed, else write
the frame. -/
def vprWrite (st : VprState) (d : JStr) : VprState :=
  if st.destroyed then st else { st with writes := st.writes ++ [d] }

/-- `formatChoice`: defaults an `undefined` choice to `{}` (a `null` choice
makes the later property reads throw, `none`); assembles
`{index, delta {content?, function_call?}, finish_reason}`, where
`function_call` survives only when the fragment carries truthy `name` *and*
`arguments` (`JSON.stringify` drops the `undefined`-valued keys). -/
def formatChoice (c0? : Option Json) : Option Json :=
  let c := c0?.getD (Json.obj [])
  match c with
  | .null => none
  | _ =>
    let deltaV : Option Json := pget c (jstr "delta")
    let contentV : Option Json :=
      match deltaV with
      | some (.obj df) => objLookup df (jstr "content")
      | _ => none
    let fcV : Option Json :=
      match deltaV with
      | some (.obj df) => objLookup df (jstr "function_call")
      | _ => none
    let fcOut : Option Json :=
      match fcV with
      | some fcv =>
        (match pget fcv nameKey, pget fcv argsKey with
         | some nv, some av =>
           if truthy fcv && truthy nv && truthy av then
             some (Json.obj [(nameKey, nv), (argsKey, av)])
           else none
         | _, _ => none)
      | none => none
    let fr : Json :=
      match pget c (jstr "finish_reason") with
      | some v => if truthy v then v else Json.null
      | none => Json.null
    let deltaFields : List (JStr × Json) :=
      (match contentV with
       | some cv => [(jstr "content", cv)]
       | none => []) ++
      (match fcOut with
       | some f => [(jstr "function_call", f)]
       | none => [])
    some (Json.obj [(jstr "index", Json.num 0),
                    (jstr "delta", Json.obj deltaFields),
                    (jstr "finish_reason", fr)])

/-- `formatStreamData`: reads `data.id` (throws on `null` data), defaults the
id to `chatcmpl-${Date.now()}`, takes `data.choices?.[0]` and wraps the
formatted choice in the stable chunk envelope. -/
def formatStreamData (nowMs : Nat) (model : JStr) (d : Json) : Option Json :=
  match d with
  | .null => none
  | _ =>
    let idV : Option Json :=
      match d with
      | .obj fs => objLookup fs (jstr "id")
      | _ => none
    let idJ : Json :=
      match idV with
      | some v => if truthy v then v else Json.str (jstr "chatcmpl-" ++ natDigits nowMs)
      | none => Json.str (jstr "chatcmpl-" ++ natDigits nowMs)
    let c0 : Option Json :=
      match d with
      | .obj fs =>
        (match objLookup fs (jstr "choices") with
         | some (.arr xs) => xs.head?
         | some (.obj ofs) => objLookup ofs (jstr "0")
         | _ => none)
      | _ => none
    match formatChoice c0 with
    | none => none
    | some ch =>
      some (Json.obj [(jstr "id", idJ),
                      (jstr "object", Json.str (jstr "chat.completion.chunk")),
                      (jstr "created", Json.num (nowMs / 1000 : Nat)),
                      (jstr "model", Json.str model),
                      (jstr "choices", Json.arr [ch])])

/-- `processDataLine`: bail out when the stream is destroyed; otherwise parse
the payload after `data:`, format it, and write — a parse failure or a thrown
format is caught and only logged. -/
def vprProcessDataLine (nowMs : Nat) (model : JStr) (st : VprState)
    (line : JStr) : VprState :=
  if st.destroyed then st
  else
    match parseJson (line.drop 5) with
    | some d =>
      (match formatStreamData nowMs model d with
       | some fd => vprWrite st (dataFrame (serJson fd))
       | none => st)
    | none => st

/-- `processLine` on an (already trimmed) line: forward `data: [DONE]`
verbatim, process other `data:` lines, ignore the rest. -/
def vprProcessLine (nowMs : Nat) (model : JStr) (st : VprState)
    (line : JStr) : VprState :=
  let t := trim line
  if t = jstr "data: [DONE]" then vprWrite st doneFrame
  else if startsWithL (jstr "data:") t then vprProcessDataLine nowMs model st t
  else st

/-- `processChunk` of this revision: `split('\n')`, keep the last segment as
the new buffer, process each complete line. -/
def vprProcessChunk (nowMs : Nat) (model : JStr) (st : VprState)
    (chunk : JStr) : VprState :=
  let p := splitLines (st.buffer ++ chunk)
  p.1.foldl (vprProcessLine nowMs model) { st with buffer := p.2 }

/-- `end()`: return immediately when the stream is destroyed; otherwise flush
every segment of a non-blank leftover buffer through `processLine`, write the
final `[DONE]`, end the response and mark the stream destroyed. -/
def vprEnd (nowMs : Nat) (model : JStr) (st : VprState) : VprState :=
  if st.destroyed then st
  else
    let st1 :=
      if trim st.buffer ≠ [] then
        let p := splitLines st.buffer
        (p.1 ++ [p.2]).foldl (vprProcessLine nowMs model) st
      else st
    let st2 := vprWrite st1 doneFrame
    { st2 with resEnded := true, destroyed := true }

/-- The observable events driving one streaming relay: an upstream chunk
arriving, the downstream client disconnecting (the `res.on('close')`
callback), and the upstream iteration finishing (the `finally` block calling
`end()`). -/
inductive VprEvent where
  | chunk : JStr → VprEvent
  | close : VprEvent
  | endev : VprEvent

/-- One event step of the relay. -/
def vprStep (nowMs : Nat) (model : JStr) (st : VprState) : VprEvent → VprState
  | .chunk c => vprProcessChunk nowMs model st c
  | .close => { st with destroyed := true }
  | .endev => vprEnd nowMs model st

/-- Run an event trace in order. -/
def runVpr (nowMs : Nat) (model : JStr) (st : VprState)
    (evs : List VprEvent) : VprState :=
  evs.foldl (vprStep nowMs model) st

/-!
## Concrete fixtures used by the evaluations below
-/

/-- A minimal well-formed request: `{model:"gpt-4", messages:[{role:"user",
content:"hi"}]}`. -/
def baseReq : ChatCompletionRequest :=
  ⟨jstr "gpt-4", [⟨jstr "user", .str (jstr "hi"), none, none⟩],
   none, none, none, none, none, none, none, none, none, none,
   none, none, none, none⟩

/-- A function definition `{name:"f", parameters:{}}`. -/
def exFn : FuncDef := ⟨jstr "f", none, Json.obj []⟩

/-- A tool wrapping `{name:"g", parameters:{}}`. -/
def exTool : Tool := ⟨⟨jstr "g", none, Json.obj []⟩⟩

/-- A request carrying *both* a `functions` array and a `tools` array. -/
def reqBothFamilies : ChatCompletionRequest :=
  { baseReq with functions := some [exFn], tools := some [exTool] }

/-- A request whose only message carries array-of-parts content
`[{type:"text", text:"hi"}]`. -/
def reqArrayContent : ChatCompletionRequest :=
  { baseReq with
    messages := [⟨jstr "user", .parts [⟨jstr "text", some (jstr "hi"), none⟩], none, none⟩] }

/-- A request whose `user` field reassembles a forbidden token under the
single-pass script filter: `"javascrscript:ipt:"`. -/
def reqScript : ChatCompletionRequest :=
  { baseReq with user := some (jstr "javascrscript:ipt:") }

/-- The payload text `{"a":1}` of the C2 data frame. -/
def exPayload : JStr := lbrace :: (jstr "\"a\":1" ++ [rbrace])

/-- The parsed value of `exPayload`. -/
def exPayloadJson : Json := Json.obj [(jstr "a", Json.num 1)]

/-- The spec's three-way mid-frame chunking of the C2 upstream bytes:
`data: {"a` / `":1}\n\n` / `data: [DONE]\n\n`. -/
def exChunks : List JStr :=
  [jstr "data: " ++ [lbrace, '"', 'a'],
   jstr "\":1" ++ [rbrace, '\n', '\n'],
   jstr "data: [DONE]\n\n"]

/-- The delta-field list of the C3 witness frame: `content:"x"` and
`function_call:{name:"foo"}`. -/
def exDeltaFields : List (JStr × Json) :=
  [(jstr "content", Json.str (jstr "x")),
   (jstr "function_call", Json.obj [(nameKey, Json.str (jstr "foo"))])]

/-- The top-level field list of the C3 witness frame. -/
def exFrameFields : List (JStr × Json) :=
  [(jstr "choices", Json.arr [Json.obj [(jstr "delta", Json.obj exDeltaFields)]])]

/-- The C3 witness frame
`{choices:[{delta:{content:"x", function_call:{name:"foo"}}}]}`. -/
def exFrame : Json := Json.obj exFrameFields

/-- The C3 witness fragment `function_call:{name:"foo"}`. -/
def exFC : Json := Json.obj [(nameKey, Json.str (jstr "foo"))]

/-- The C3 counterexample frame: the fragment is `function_call:{name:""}` —
a *present* but empty `name`. -/
def exFrameEmptyName : Json :=
  Json.obj [(jstr "choices", Json.arr
    [Json.obj [(jstr "delta", Json.obj
      [(jstr "function_call", Json.obj [(nameKey, Json.str [])])])]])]

/-- Provider A, primary for model `m`. -/
def provA : Provider := ⟨jstr "A", jstr "https://a.example/v1", [(jstr "m", jstr "m-a")]⟩

/-- Provider B, also serving model `m`. -/
def provB : Provider := ⟨jstr "B", jstr "https://b.example/v1", [(jstr "m", jstr "m-b")]⟩

/-- Provider C, also serving model `m`. -/
def provC : Provider := ⟨jstr "C", jstr "https://c.example/v1", [(jstr "m", jstr "m-c")]⟩

/-- The provider table `[A, B, C]`. -/
def providersABC : List Provider := [provA, provB, provC]

/-- Credentials for all three providers, keyed by lower-cased name. -/
def env0 : Env := [(jstr "a", jstr "keya"), (jstr "b", jstr "keyb"), (jstr "c", jstr "keyc")]

/-- A request for model `m`. -/
def reqM : ChatCompletionRequest := { baseReq with model := jstr "m" }

/-- A fresh response handle: headers not sent, nothing written. -/
def res0 : ResState := ⟨false, []⟩

/-- Observer: the `user` field of a sanitization result (`none` on error). -/
def userOf : Except String ChatCompletionRequest → Option JStr
  | .ok r => r.user
  | .error _ => none

/-- Observer: did sanitization return normally? -/
def sanitizeOk : Except String ChatCompletionRequest → Bool
  | .ok _ => true
  | .error _ => false

/-!
## Helper lemmas
-/

theorem splitLines_append (x y : JStr) :
    splitLines (x ++ y) =
      ((splitLines x).1 ++ (splitLines ((splitLines x).2 ++ y)).1,
       (splitLines ((splitLines x).2 ++ y)).2) := by
  induction x with
  | nil => simp [splitLines]
  | cons c x' ih =>
    by_cases hc : c = '\n'
    · subst hc
      simp [splitLines, ih]
    · rcases h' : splitLines x' with ⟨l1, lo⟩
      cases l1 with
      | nil =>
        have ihx := ih
        rw [h'] at ihx
        rcases h2 : splitLines (lo ++ y) with ⟨m1, m2⟩
        simp only [List.nil_append, h2] at ihx
        cases m1 with
        | nil =>
          simp [splitLines, if_neg hc, ihx, h', h2]
        | cons m ms =>
          simp [splitLines, if_neg hc, ihx, h', h2]
      | cons l ls =>
        have ihx := ih
        rw [h'] at ihx
        rcases h2 : splitLines (lo ++ y) with ⟨m1, m2⟩
        simp only [h2] at ihx
        simp [splitLines, if_neg hc, ihx, h', h2]

theorem noNl_splitLines_snd (x : JStr) : '\n' ∉ (splitLines x).2 := by
  induction x with
  | nil => simp [splitLines]
  | cons c x' ih =>
    by_cases hc : c = '\n'
    · subst hc; simpa [splitLines] using ih
    · rcases h' : splitLines x' with ⟨l1, lo⟩
      rw [h'] at ih
      cases l1 with
      | nil =>
        simp only [splitLines, if_neg hc, h']
        simp only [List.mem_cons, not_or]
        exact ⟨fun hh => hc hh.symm, ih⟩
      | cons l ls =>
        simpa [splitLines, if_neg hc, h'] using ih

theorem splitLines_of_noNl (x : JStr) (h : '\n' ∉ x) : splitLines x = ([], x) := by
  induction x with
  | nil => simp [splitLines]
  | cons c x' ih =>
    have hc : c ≠ '\n' := fun hh => h (hh ▸ List.mem_cons_self c x')
    have hx' : '\n' ∉ x' := fun hh => h (List.mem_cons_of_mem c hh)
    simp [splitLines, if_neg hc, ih hx']

theorem splitLines_line (x y : JStr) (h : '\n' ∉ x) :
    splitLines (x ++ '\n' :: y) = (x :: (splitLines y).1, (splitLines y).2) := by
  induction x with
  | nil => simp [splitLines]
  | cons c x' ih =>
    have hc : c ≠ '\n' := fun hh => h (hh ▸ List.mem_cons_self c x')
    have hx' : '\n' ∉ x' := fun hh => h (List.mem_cons_of_mem c hh)
    simp [splitLines, if_neg hc, ih hx']

theorem processChunk_append (st : SPState) (a b : JStr) :
    processChunk (processChunk st a) b = processChunk st (a ++ b) := by
  simp only [processChunk]
  have h := splitLines_append (st.buffer ++ a) b
  rw [← List.append_assoc, h]
  rcases h1 : splitLines (st.buffer ++ a) with ⟨l1, lo1⟩
  rcases h2 : splitLines (lo1 ++ b) with ⟨l2, lo2⟩
  simp [h1, h2, List.append_assoc]

theorem runChunks_flatten (cs : List JStr) (st : SPState) (h : '\n' ∉ st.buffer) :
    runChunks st cs = processChunk st cs.flatten := by
  induction cs generalizing st with
  | nil =>
    simp [runChunks, processChunk, splitLines_of_noNl _ h]
  | cons c cs ih =>
    have hb : '\n' ∉ (processChunk st c).buffer := by
      simp only [processChunk]
      exact noNl_splitLines_snd (st.buffer ++ c)
    calc runChunks st (c :: cs) = runChunks (processChunk st c) cs := rfl
      _ = processChunk (processChunk st c) cs.flatten := ih _ hb
      _ = processChunk st (c ++ cs.flatten) := processChunk_append st c cs.flatten
      _ = processChunk st (c :: cs).flatten := by simp

theorem dropWhile_length_le (p : Char → Bool) (l : JStr) :
    (l.dropWhile p).length ≤ l.length := by
  induction l with
  | nil => simp
  | cons c t ih =>
    by_cases hp : p c
    · rw [List.dropWhile_cons_of_pos hp]
      exact Nat.le_trans ih (by simp)
    · rw [List.dropWhile_cons_of_neg hp]

theorem dropWhile_eq_self_of_length (p : Char → Bool) (l : JStr)
    (h : (l.dropWhile p).length = l.length) : l.dropWhile p = l := by
  induction l with
  | nil => rfl
  | cons c t ih =>
    by_cases hp : p c
    · exfalso
      rw [List.dropWhile_cons_of_pos hp] at h
      have := dropWhile_length_le p t
      simp at h
      omega
    · rw [List.dropWhile_cons_of_neg hp]

theorem trimRight_eq_self_of_trim (s : JStr) (h : trim s = s) : trimRight s = s := by
  have hlen1 : (trimRight s).length ≤ s.length := by
    simp only [trimRight]
    have := dropWhile_length_le isJsWs s.reverse
    simpa using this
  have hlen2 : (trimLeft (trimRight s)).length ≤ (trimRight s).length :=
    dropWhile_length_le isJsWs (trimRight s)
  have hs : s.length ≤ (trimRight s).length := by
    have : (trimLeft (trimRight s)).length = s.length := by rw [← trim]; rw [h]
    omega
  have hdw : (s.reverse.dropWhile isJsWs).length = s.reverse.length := by
    have h1 : (trimRight s).length = s.length := le_antisymm hlen1 hs
    simp only [trimRight] at h1
    simpa using h1
  simp only [trimRight, dropWhile_eq_self_of_length isJsWs s.reverse hdw, List.reverse_reverse]

theorem trimLeft_eq_self_of_trim (s : JStr) (h : trim s = s) : trimLeft s = s := by
  have := trimRight_eq_self_of_trim s h
  calc trimLeft s = trimLeft (trimRight s) := by rw [this]
    _ = trim s := rfl
    _ = s := h

theorem dropWhile_head_false (p : Char → Bool) (c : Char) (t : JStr)
    (h : List.dropWhile p (c :: t) = c :: t) : p c = false := by
  by_cases hp : p c
  · exfalso
    rw [List.dropWhile_cons_of_pos hp] at h
    have := dropWhile_length_le p t
    have hl : (List.dropWhile p t).length = (c :: t).length := by rw [h]
    simp at hl
    omega
  · simpa using hp

theorem trim_data_prefix (s : JStr) (htrim : trim s = s) (hne : s ≠ []) :
    trim (jstr "data: " ++ s) = jstr "data: " ++ s := by
  have hR : trimRight s = s := trimRight_eq_self_of_trim s htrim
  rcases hrev : s.reverse with _ | ⟨d, t'⟩
  · exfalso
    exact hne (by simpa using congrArg List.reverse hrev)
  · have hdw : List.dropWhile isJsWs (d :: t') = d :: t' := by
      have : List.dropWhile isJsWs s.reverse = s.reverse := by
        simp only [trimRight] at hR
        have := congrArg List.reverse hR
        simpa using this
      rw [hrev] at this
      exact this
    have hd : isJsWs d = false := dropWhile_head_false isJsWs d t' hdw
    have hRfull : trimRight (jstr "data: " ++ s) = jstr "data: " ++ s := by
      simp only [trimRight, List.reverse_append, hrev]
      rw [List.cons_append, List.dropWhile_cons_of_neg (by simp [hd])]
      have : (d :: (t' ++ (jstr "data: ").reverse)).reverse
          = jstr "data: " ++ (d :: t').reverse := by
        simp
      rw [this, ← hrev]
      simp
    have hLfull : trimLeft (jstr "data: " ++ s) = jstr "data: " ++ s := by
      have hform : jstr "data: " ++ s = 'd' :: (jstr "ata: " ++ s) := rfl
      rw [hform]
      simp only [trimLeft]
      rw [List.dropWhile_cons_of_neg (by simp [isJsWs])]
    simp only [trim, hRfull, hLfull]

theorem startsWithL_self_append (p r : JStr) : startsWithL p (p ++ r) = true := by
  induction p with
  | nil => rfl
  | cons c ps ih => simp [startsWithL, ih]

theorem objLookup_objSet_same (fs : List (JStr × Json)) (k : JStr) (v : Json) :
    objLookup (objSet fs k v) k = some v := by
  induction fs with
  | nil => simp [objSet, objLookup]
  | cons f rest ih =>
    rcases f with ⟨k', v'⟩
    by_cases hk : k' = k
    · simp [objSet, objLookup, hk]
    · simp [objSet, objLookup, hk, ih]

theorem objLookup_objSet_other (fs : List (JStr × Json)) (k k' : JStr) (v : Json)
    (h : k' ≠ k) : objLookup (objSet fs k v) k' = objLookup fs k' := by
  induction fs with
  | nil =>
    simp only [objSet, objLookup]
    rw [if_neg (fun hh : k = k' => h hh.symm)]
  | cons f rest ih =>
    rcases f with ⟨k2, v2⟩
    simp only [objSet]
    by_cases hk : k2 = k
    · rw [if_pos hk]
      simp only [objLookup]
      rw [if_neg (fun hh : k = k' => h hh.symm),
          if_neg (fun hh : k2 = k' => h (hk ▸ hh).symm)]
    · rw [if_neg hk]
      simp only [objLookup, ih]

theorem handleLine_data (s : JStr) (v : Json) (hparse : parseJson s = some v)
    (htrim : trim s = s) (hne : s ≠ []) :
    handleLine (jstr "data: " ++ s) = [dataFrame (serJson v)] := by
  have ht := trim_data_prefix s htrim hne
  have hdrop : (jstr "data: " ++ s).drop 6 = s := by
    have hl : (jstr "data: ").length = 6 := rfl
    rw [← hl, List.drop_left]
  simp only [handleLine, ht, startsWithL_self_append, if_true, hdrop]
  by_cases hdone : s = jstr "[DONE]"
  · exfalso
    rw [hdone] at hparse
    have hnone : parseJson (jstr "[DONE]") = none := rfl
    rw [hnone] at hparse
    exact Option.noConfusion hparse
  · simp [hdone, hparse]

/-- Claim C2 (amended): for one upstream JSON data frame followed by the
`[DONE]` terminator frame, however the bytes are chunked, the relay writes the
re-serialized data frame and the terminator in order during chunk processing —
but it does not end the response on the terminator, and `end()` then writes a
*second* `data: [DONE]\n\n` before ending: three frames total, not two. -/
theorem c2_stream_relay_three_frames (s : JStr) (v : Json) (chunks : List JStr)
    (hparse : parseJson s = some v) (hnl : '\n' ∉ s) (htrim : trim s = s)
    (hne : s ≠ []) (hjoin : chunks.flatten = upstreamBytes s) :
    endStream (runChunks initSP chunks) =
      ⟨[], [dataFrame (serJson v), doneFrame, doneFrame], true⟩ := by
  have h0 : '\n' ∉ (initSP).buffer := by simp [initSP]
  rw [runChunks_flatten chunks initSP h0, hjoin]
  have e1 : jstr "\n\n" = '\n' :: '\n' :: [] := rfl
  have e2 : jstr "data: [DONE]\n\n" = jstr "data: [DONE]" ++ '\n' :: '\n' :: [] := rfl
  have hshape : upstreamBytes s
      = (jstr "data: " ++ s) ++ '\n' :: ('\n' :: (jstr "data: [DONE]" ++ '\n' :: ('\n' :: []))) := by
    simp only [upstreamBytes, e1, e2, List.append_assoc, List.cons_append, List.nil_append]
  rw [hshape]
  have hnl1 : '\n' ∉ (jstr "data: " ++ s) := by
    intro hmem
    rcases List.mem_append.mp hmem with h | h
    · exact absurd h (by decide)
    · exact hnl h
  have hnl3 : '\n' ∉ jstr "data: [DONE]" := by decide
  simp only [processChunk, initSP, List.nil_append]
  rw [splitLines_line _ _ hnl1]
  rw [show ('\n' :: (jstr "data: [DONE]" ++ '\n' :: ('\n' :: [])))
      = [] ++ '\n' :: (jstr "data: [DONE]" ++ '\n' :: ('\n' :: [])) from rfl]
  rw [splitLines_line _ _ (by simp)]
  rw [show (jstr "data: [DONE]" ++ '\n' :: ('\n' :: []))
      = jstr "data: [DONE]" ++ '\n' :: ['\n'] from rfl]
  rw [splitLines_line _ _ hnl3]
  have hlast : splitLines ['\n'] = ([[]], []) := rfl
  rw [hlast]
  simp only [List.map_cons, List.map_nil, handleLine_data s v hparse htrim hne]
  have hempty : handleLine [] = [] := rfl
  have hdone : handleLine (jstr "data: [DONE]") = [doneFrame] := rfl
  rw [hempty, hdone]
  simp [endStream]

/-- Claim C2, as stated, is false: on the spec's own three-way mid-frame
chunking of `data: {"a":1}\n\n` + `data: [DONE]\n\n`, the relay writes three
frames (the data frame and the terminator twice), not exactly two. -/
theorem c2_exactly_two_frames_refuted :
    (endStream (runChunks initSP exChunks)).writes
      = [dataFrame (serJson exPayloadJson), doneFrame, doneFrame] ∧
    (endStream (runChunks initSP exChunks)).writes
      ≠ [dataFrame (serJson exPayloadJson), doneFrame] := by
  constructor
  · rfl
  · intro hcontra
    have h1 : (endStream (runChunks initSP exChunks)).writes
        = [dataFrame (serJson exPayloadJson), doneFrame, doneFrame] := rfl
    rw [h1] at hcontra
    have hlen := congrArg List.length hcontra
    simp at hlen

/-- Witness for C2's amended theorem at the concrete chunking. -/
theorem c2_stream_relay_three_frames_witness :
    endStream (runChunks initSP exChunks)
      = ⟨[], [dataFrame (serJson exPayloadJson), doneFrame, doneFrame], true⟩ :=
  c2_stream_relay_three_frames exPayload exPayloadJson exChunks rfl (by decide)
    rfl (by decide) rfl

/-- Claim C3 (amended): a streamed frame whose first choice's delta carries a
truthy `function_call` fragment is forwarded with `delta.content` forced to
`null` and `delta.function_call` replaced by `normalizeFC`: an object holding
only the fragment's `name` when that field is present and non-empty
(JS-truthy), else only its `arguments` when present and non-empty, else
nothing — presence alone is not enough, and `name` takes priority. -/
theorem c3_function_call_normalized (s : JStr) (pf c0f df : List (JStr × Json))
    (fc : Json) (rest : List Json)
    (hp : parseJson s = some (Json.obj pf))
    (hch : objLookup pf (jstr "choices") = some (.arr (Json.obj c0f :: rest)))
    (hd : objLookup c0f (jstr "delta") = some (.obj df))
    (hfc : objLookup df (jstr "function_call") = some fc)
    (ht : truthy fc = true) :
    ∃ p', handleFunctionCalls (Json.obj pf) = some p' ∧
      p9HandleData s = [dataFrame (serJson p')] ∧
      deltaContent p' = some Json.null ∧
      deltaFC p' = some (normalizeFC fc) ∧
      (∀ nv, pget fc nameKey = some nv → truthy nv = true →
        normalizeFC fc = Json.obj [(nameKey, nv)]) ∧
      (truthyO (pget fc nameKey) = false →
        ∀ av, pget fc argsKey = some av → truthy av = true →
        normalizeFC fc = Json.obj [(argsKey, av)]) := by
  have hkey : (jstr "content") ≠ (jstr "function_call") := by decide
  refine ⟨Json.obj (objSet pf (jstr "choices")
      (Json.arr (Json.obj (objSet c0f (jstr "delta")
        (Json.obj (objSet (objSet df (jstr "content") Json.null)
          (jstr "function_call") (normalizeFC fc)))) :: rest))), ?_, ?_, ?_, ?_, ?_, ?_⟩
  · simp only [handleFunctionCalls, hch, hd, hfc, ht, if_true]
  · have hsd : s ≠ jstr "[DONE]" := by
      intro h
      rw [h] at hp
      have hnone : parseJson (jstr "[DONE]") = none := rfl
      rw [hnone] at hp
      exact Option.noConfusion hp
    simp only [p9HandleData, if_neg hsd, hp]
    simp only [handleFunctionCalls, hch, hd, hfc, ht, if_true]
  · simp only [deltaContent, firstDelta, objLookup_objSet_same]
    rw [objLookup_objSet_other _ _ _ _ hkey, objLookup_objSet_same]
  · simp only [deltaFC, firstDelta, objLookup_objSet_same]
  · intro nv hnv htv
    simp [normalizeFC, hnv, htv]
  · intro hco av hav htav
    rcases hn : pget fc nameKey with _ | nv
    · simp [normalizeFC, hn, hav, htav]
    · rw [hn] at hco
      simp only [truthyO] at hco
      simp [normalizeFC, hn, hco, hav, htav]

/-- Claim C3, as stated, is false on a fragment with a present but empty
`name`: for `function_call:{name:""}` the code forwards `function_call:{}`,
dropping the key that was present in the fragment (the claim predicts
`function_call:{name:""}`); `content` is still forced to `null`. -/
theorem c3_present_name_key_refuted :
    deltaFC exFrameEmptyName = some (Json.obj [(nameKey, Json.str [])]) ∧
    ∃ p', handleFunctionCalls exFrameEmptyName = some p' ∧
      deltaContent p' = some Json.null ∧
      deltaFC p' = some (Json.obj []) ∧
      Json.obj ([] : List (JStr × Json)) ≠ Json.obj [(nameKey, Json.str [])] := by
  refine ⟨rfl, ⟨_, rfl, rfl, rfl, ?_⟩⟩
  intro h
  injection h with h'
  exact List.noConfusion h'

/-- Witness for C3's amended theorem at the `function_call:{name:"foo"}`
frame — in particular the forwarded fragment is exactly `{name:"foo"}` with no
`arguments` key, and `content` is `null`. -/
theorem c3_function_call_normalized_witness :
    ∃ p', handleFunctionCalls (Json.obj exFrameFields) = some p' ∧
      p9HandleData (serJson exFrame) = [dataFrame (serJson p')] ∧
      deltaContent p' = some Json.null ∧
      deltaFC p' = some (normalizeFC exFC) ∧
      (∀ nv, pget exFC nameKey = some nv → truthy nv = true →
        normalizeFC exFC = Json.obj [(nameKey, nv)]) ∧
      (truthyO (pget exFC nameKey) = false →
        ∀ av, pget exFC argsKey = some av → truthy av = true →
        normalizeFC exFC = Json.obj [(argsKey, av)]) :=
  c3_function_call_normalized (serJson exFrame) exFrameFields
    [(jstr "delta", Json.obj exDeltaFields)] exDeltaFields exFC [] rfl rfl rfl rfl rfl

/-- Claim C4: false on the code — a request carrying both a `functions` array
and a `tools` array passes `validateChatCompletionRequest` with zero errors
(the live validator never inspects those fields), even though the repository's
own `chatCompletionSchema` refinement rejects exactly this input. -/
theorem c4_validator_accepts_both_families :
    validateChatCompletionRequest reqBothFamilies = [] ∧
    schemaFunctionsToolsExclusive reqBothFamilies = false := by
  constructor
  · rfl
  · rfl

/-- Claim C5: false on the code — the request below is accepted by the
validator (its message content is an array of typed parts, which
`validateMessages` explicitly supports), yet sanitization does not return a
structurally identical request: `sanitizeInput` is applied to the content
array itself, which does not survive the HTML tokenizer, so no request with
its array/shape preserved ever comes back. -/
theorem c5_sanitizer_rejects_array_content :
    validateChatCompletionRequest reqArrayContent = [] ∧
    sanitizeOk (sanitizeChatCompletionRequest reqArrayContent) = false ∧
    sanitizeChatCompletionRequest reqArrayContent
      = .error "sanitize-html applied to non-string message content" := by
  exact ⟨rfl, rfl, rfl⟩

/-- Claim C9: false on the code — sanitization is not idempotent.  For
`user = "javascrscript:ipt:"` the single-pass script filter's removal of
`script:` reassembles `javascript:`, so the first sanitization returns
`user = "javascript:"` and sanitizing that result again returns `user = ""`:
the second pass is not byte-identical to the first. -/
theorem c9_sanitization_not_idempotent :
    userOf (sanitizeChatCompletionRequest reqScript) = some (jstr "javascript:") ∧
    userOf ((sanitizeChatCompletionRequest reqScript).bind sanitizeChatCompletionRequest)
      = some [] ∧
    userOf ((sanitizeChatCompletionRequest reqScript).bind sanitizeChatCompletionRequest)
      ≠ userOf (sanitizeChatCompletionRequest reqScript) := by
  refine ⟨rfl, rfl, ?_⟩
  intro h
  have h1 : userOf (sanitizeChatCompletionRequest reqScript) = some (jstr "javascript:") := rfl
  have h2 : userOf ((sanitizeChatCompletionRequest reqScript).bind sanitizeChatCompletionRequest)
      = some [] := rfl
  rw [h1, h2] at h
  have := congrArg (fun o => (Option.getD o []).length) h
  simp [jstr] at this

/-- Claim C6: `checkPremiumAccess` throws its premium denial exactly when the
model entry is premium and the caller's key record is absent or not premium;
in every other case it returns normally (and in `validateAndProcessRequest`
the call sits before the failover/relay steps, so a throw precedes any
outbound call). -/
theorem c6_premium_gate_iff (mi : AccessModelInfo) (k : Option ApiKey) :
    checkPremiumAccess mi k = Except.error premiumDeniedMsg ↔
      (mi.premium = true ∧ (k = none ∨ ∃ a, k = some a ∧ a.premium = false)) := by
  rcases mi with ⟨p⟩
  cases k with
  | none =>
    cases p <;> simp [checkPremiumAccess]
  | some a =>
    rcases a with ⟨i, ap, g⟩
    cases p <;> cases ap <;> simp [checkPremiumAccess]

/-- Claim C7, as stated, is false in one respect: when the failover's
all-providers-failed error reaches `handleError`, the caller does receive
exactly one 500 response, but its body is the generic `Internal server error`
— not an "all providers failed" message (the failover's text never appears in
the body). -/
theorem c7_body_not_all_providers_failed :
    handleError res0 allProvidersFailedError = ⟨true, [(500, "Internal server error")]⟩ ∧
    containsSub (jstr "providers") (jstr "Internal server error") = false := by
  exact ⟨rfl, rfl⟩

/-- Claim C7 (amended): if the failover function throws its
all-providers-failed error and no headers have been sent, `handleError` sends
exactly one response — a 500 whose body is the generic `Internal server
error` — and the thrown message itself is not echoed to the caller. -/
theorem c7_single_generic_500 (res : ResState) (h : res.headersSent = false) :
    handleError res allProvidersFailedError
      = ⟨true, res.sent ++ [(500, "Internal server error")]⟩ ∧
    "Internal server error" ≠ allProvidersFailedError.message := by
  constructor
  · simp [handleError, allProvidersFailedError, h]
  · intro hh
    exact absurd (congrArg String.length hh) (by decide)

/-- Witness for C7's amended theorem on a fresh response handle. -/
theorem c7_single_generic_500_witness :
    handleError res0 allProvidersFailedError
      = ⟨true, res0.sent ++ [(500, "Internal server error")]⟩ ∧
    "Internal server error" ≠ allProvidersFailedError.message :=
  c7_single_generic_500 res0 rfl

/-- Claim C10: in every outbound body built by `createOptimizedConfig` the
`functions`/`function_call` and `tools`/`tool_choice` families are mutually
exclusive, and a request carrying `functions` has `tools` and `tool_choice`
omitted from the body even when present in the request. -/
theorem c10_outbound_mutual_exclusion (pc : ProviderConfig)
    (r : ChatCompletionRequest) (stream : Bool) (model : JStr) :
    ((createOptimizedConfig pc r stream model).data.functions.isSome &&
     (createOptimizedConfig pc r stream model).data.tools.isSome) = false ∧
    (r.functions.isSome = true →
      (createOptimizedConfig pc r stream model).data.tools = none ∧
      (createOptimizedConfig pc r stream model).data.tool_choice = none) := by
  rcases hf : r.functions with _ | fs
  · rcases ht : r.tools with _ | ts
    · simp [createOptimizedConfig, hf, ht]
    · simp [createOptimizedConfig, hf, ht]
  · simp [createOptimizedConfig, hf]

/-- Witness for C10 at a request carrying both families. -/
theorem c10_outbound_mutual_exclusion_witness :
    ((createOptimizedConfig ⟨provA, jstr "keya"⟩ reqBothFamilies false
        (jstr "gpt-4")).data.tools = none ∧
     (createOptimizedConfig ⟨provA, jstr "keya"⟩ reqBothFamilies false
        (jstr "gpt-4")).data.tool_choice = none) :=
  (c10_outbound_mutual_exclusion ⟨provA, jstr "keya"⟩ reqBothFamilies false
    (jstr "gpt-4")).2 rfl

/-- Claim C1: false on the code — the failover executor never performs an
upstream call, so no upstream outcome can influence it: for model `m` served
by providers `[A, B, C]` (all credentialed), the executor returns provider `A`
after the artificial delay, logging only the success line for `A`.  Under the
claim's scenario (A's upstream would time out, B's would succeed) the result
would be attributed to `B` with `A`'s failure logged; the code attributes it
to `A` and logs no failure, and the configured 15000 ms timeout is set on a
config that is never sent anywhere. -/
theorem c1_failover_attempts_no_upstream_call :
    failoverFunction env0 providersABC 15000 reqM
      = .ok (⟨provA, jstr "keya"⟩, [jstr "Successfully used provider: A"]) := by
  rfl

theorem vprProcessLine_destroyed (nowMs : Nat) (model : JStr) (st : VprState)
    (line : JStr) (h : st.destroyed = true) :
    vprProcessLine nowMs model st line = st := by
  simp [vprProcessLine, vprProcessDataLine, vprWrite, h]

theorem vprFold_destroyed (nowMs : Nat) (model : JStr) (ls : List JStr)
    (s0 : VprState) (h : s0.destroyed = true) :
    (ls.foldl (vprProcessLine nowMs model) s0) = s0 := by
  induction ls with
  | nil => rfl
  | cons l ls ih =>
    rw [List.foldl_cons, vprProcessLine_destroyed nowMs model s0 l h]
    exact ih

theorem vprStep_destroyed (nowMs : Nat) (model : JStr) (st : VprState)
    (e : VprEvent) (h : st.destroyed = true) :
    (vprStep nowMs model st e).writes = st.writes ∧
    (vprStep nowMs model st e).destroyed = true := by
  cases e with
  | chunk c =>
    simp only [vprStep, vprProcessChunk]
    rw [vprFold_destroyed nowMs model _ _ (by simpa using h)]
    exact ⟨rfl, by simpa using h⟩
  | close => exact ⟨rfl, rfl⟩
  | endev => simp [vprStep, vprEnd, h]

theorem runVpr_destroyed (nowMs : Nat) (model : JStr) (evs : List VprEvent)
    (st : VprState) (h : st.destroyed = true) :
    (runVpr nowMs model st evs).writes = st.writes := by
  induction evs generalizing st with
  | nil => rfl
  | cons e evs ih =>
    have hs := vprStep_destroyed nowMs model st e h
    calc (runVpr nowMs model st (e :: evs)).writes
        = (runVpr nowMs model (vprStep nowMs model st e) evs).writes := rfl
      _ = (vprStep nowMs model st e).writes := ih _ hs.2
      _ = st.writes := hs.1

/-- Claim C8: once the downstream client disconnects (the `close` event sets
`isStreamDestroyed`), no further frame is ever written to the caller's
response, whatever chunks still arrive and even through the final `end()` call
— the buffered remainder is dropped rather than flushed, and every
would-be write resolves silently (the destroyed-path of `writeToResponse`
resolves rather than rejecting, so nothing is raised). -/
theorem c8_disconnect_stops_writes (nowMs : Nat) (model : JStr) (st : VprState)
    (evs : List VprEvent) :
    (runVpr nowMs model st (VprEvent.close :: evs)).writes = st.writes := by
  have h1 : runVpr nowMs model st (VprEvent.close :: evs)
      = runVpr nowMs model { st with destroyed := true } evs := rfl
  rw [h1]
  exact runVpr_destroyed nowMs model evs _ rfl
